import Mathlib

/-!
Shallow embedding of the rathole tunnel implementation (src/protocol.rs,
src/port_allocator.rs, src/server.rs, src/client.rs, src/tunnel.rs),
together with theorems settling the specification claims about it.

Byte streams are modelled as lists of naturals below 256, socket
addresses as naturals, and the effects of the tokio runtime (I/O results,
timer ticks, channel operations) as explicit event oracles passed to the
step functions translated from the source.
-/

namespace Rathole

/-! ## Protocol messages (src/protocol.rs)

The Rust enum Message has four variants; the u16 fields are modelled as
naturals, with the u16 range condition stated separately as Message.wfb. -/

inductive Message where
  | tunnelRequest (localPort : Nat)
  | tunnelResponse (assignedPort : Nat)
  | createDataChannel
  | heartbeat
deriving DecidableEq, Repr

/-- Well-formedness of a message: its port fields fit in a u16, as they do
for every value of the Rust type. -/
def Message.wfb : Message → Bool
  | .tunnelRequest p => p < 65536
  | .tunnelResponse p => p < 65536
  | .createDataChannel => true
  | .heartbeat => true

/-- Maximum accepted payload size, 1 MiB (src/protocol.rs line 58). -/
def maxMessageSize : Nat := 1024 * 1024

/-- Little-endian decimal digits of a natural number, with an explicit
fuel argument to keep the definition kernel-reducible; fuel n is always
enough since a positive number has at most n digits. -/
def natDigitsRev : Nat → Nat → List Nat
  | 0, _ => []
  | f + 1, n => if n = 0 then [] else n % 10 :: natDigitsRev f (n / 10)

/-- Decimal rendering of a natural number, as serde_json prints integers:
most significant digit first, and 0 printed as the single digit 0. -/
def natToChars (n : Nat) : List Char :=
  if n = 0 then ['0'] else (natDigitsRev n n).reverse.map Nat.digitChar

/-- JSON serialization of a message, exactly the output of
serde_json::to_string for the internally tagged enum Message: an object
whose first member is the type tag, followed by the variant fields in
declaration order, with no whitespace. -/
def messageJson : Message → List Char
  | .tunnelRequest p =>
      "\x7b\"type\":\"TunnelRequest\",\"local_port\":".data ++ natToChars p ++ ['\x7d']
  | .tunnelResponse p =>
      "\x7b\"type\":\"TunnelResponse\",\"assigned_port\":".data ++ natToChars p ++ ['\x7d']
  | .createDataChannel => "\x7b\"type\":\"CreateDataChannel\"\x7d".data
  | .heartbeat => "\x7b\"type\":\"Heartbeat\"\x7d".data

/-- Little-endian 4-byte encoding of a u32, as written by write_u32_le;
the Rust cast data.len() as u32 reduces the value modulo 2 to the 32. -/
def u32le (n : Nat) : List Nat :=
  [n % 256, n / 256 % 256, n / 65536 % 256, n / 16777216 % 256]

/-- Value of four bytes read little-endian, as read by read_u32_le. -/
def u32leVal (b0 b1 b2 b3 : Nat) : Nat :=
  b0 + 256 * b1 + 65536 * b2 + 16777216 * b3

/-- Message.write_to (src/protocol.rs lines 26 to 47): serialize to JSON,
write the 4-byte little-endian length, then the UTF-8 bytes of the JSON
text. The produced byte stream is returned. -/
def Message.write_to (m : Message) : List Nat :=
  u32le (messageJson m).length ++ (messageJson m).map Char.toNat

/-! ### JSON payload parser

Model of serde_json::from_str restricted to what the wire format uses:
a single object whose member values are strings or unsigned integers.
String contents are read up to the closing quote (the four protocol tags
and two field names contain no escapes). -/

inductive JVal where
  | jstr (s : List Char)
  | jnum (n : Nat)
deriving DecidableEq, Repr

/-- Numeric value of a decimal digit character. -/
def charToDigitVal (c : Char) : Nat := c.toNat - 48

/-- Parse a nonempty run of decimal digits as an unsigned integer. -/
def parseNumber (cs : List Char) : Option (Nat × List Char) :=
  let ds := cs.takeWhile Char.isDigit
  if ds.isEmpty then none
  else some (ds.foldl (fun a c => 10 * a + charToDigitVal c) 0, cs.dropWhile Char.isDigit)

/-- Parse the body of a JSON string after its opening quote, up to the
closing quote. -/
def parseStringBody : List Char → Option (List Char × List Char)
  | [] => none
  | c :: cs =>
    if c = '"' then some ([], cs)
    else
      match parseStringBody cs with
      | some (s, rest) => some (c :: s, rest)
      | none => none

/-- Parse a JSON value: a string or an unsigned integer. -/
def parseJVal : List Char → Option (JVal × List Char)
  | [] => none
  | c :: rest =>
    if c = '"' then (parseStringBody rest).map fun p => (JVal.jstr p.1, p.2)
    else (parseNumber (c :: rest)).map fun p => (JVal.jnum p.1, p.2)

/-- Parse one member of a JSON object: a quoted key, a colon, a value. -/
def parseMember (cs : List Char) : Option ((List Char × JVal) × List Char) :=
  match cs with
  | [] => none
  | c :: rest =>
    if c = '"' then
      match parseStringBody rest with
      | some (k, rest1) =>
        match rest1 with
        | [] => none
        | c2 :: rest2 =>
          if c2 = ':' then (parseJVal rest2).map fun p => ((k, p.1), p.2) else none
      | none => none
    else none

/-- Parse the members of a JSON object after its opening brace, up to and
including the closing brace. The fuel argument bounds the recursion and is
instantiated with the input length, which each member strictly exceeds. -/
def parseMembers : Nat → List Char → Option (List (List Char × JVal) × List Char)
  | 0, _ => none
  | fuel + 1, cs =>
    match parseMember cs with
    | none => none
    | some (kv, rest) =>
      match rest with
      | [] => none
      | c :: rest2 =>
        if c = ',' then (parseMembers fuel rest2).map fun p => (kv :: p.1, p.2)
        else if c = '\x7d' then some ([kv], rest2)
        else none

/-- Parse a JSON object. -/
def parseObject (cs : List Char) : Option (List (List Char × JVal) × List Char) :=
  match cs with
  | [] => none
  | c :: rest => if c = '\x7b' then parseMembers (rest.length + 1) rest else none

/-- Look up a member by key; extra members are ignored, as serde does for
internally tagged enums. -/
def jfield (k : List Char) : List (List Char × JVal) → Option JVal
  | [] => none
  | (k2, v) :: rest => if k2 = k then some v else jfield k rest

/-- Interpret a member value as a u16, rejecting out-of-range integers as
serde does when deserializing into a u16 field. -/
def asU16 : Option JVal → Option Nat
  | some (.jnum n) => if n < 65536 then some n else none
  | _ => none

/-- Map a parsed JSON payload to a protocol message: the whole input must
be one object, its type member selects the variant, and the variant field
is read from the object. Unknown tags or missing fields fail, which
read_from reports as a malformed message. -/
def parseMessage (cs : List Char) : Option Message :=
  match parseObject cs with
  | some (fields, []) =>
    match jfield "type".data fields with
    | some (.jstr tag) =>
      if tag = "TunnelRequest".data then
        (asU16 (jfield "local_port".data fields)).map Message.tunnelRequest
      else if tag = "TunnelResponse".data then
        (asU16 (jfield "assigned_port".data fields)).map Message.tunnelResponse
      else if tag = "CreateDataChannel".data then some .createDataChannel
      else if tag = "Heartbeat".data then some .heartbeat
      else none
    | _ => none
  | _ => none

inductive ReadError where
  | unexpectedEof
  | messageTooLarge
  | invalidUtf8
  | malformed
deriving DecidableEq, Repr

/-- Model of String::from_utf8 on the ASCII fragment: every payload the
protocol produces is ASCII, and bytes at or above 128 are rejected (a
conservative restriction of full UTF-8 that agrees with it on ASCII). -/
def asciiDecode (bs : List Nat) : Option (List Char) :=
  if bs.all fun b => b < 128 then some (bs.map Char.ofNat) else none

/-- Message.read_from (src/protocol.rs lines 50 to 77): read the 4-byte
little-endian length; reject lengths above 1 MiB before touching the
payload; read exactly that many payload bytes; decode as UTF-8; parse the
JSON and map it to a variant. Returns the message and the unconsumed rest
of the stream. -/
def Message.read_from (bs : List Nat) : Except ReadError (Message × List Nat) :=
  match bs with
  | b0 :: b1 :: b2 :: b3 :: rest =>
    let len := u32leVal b0 b1 b2 b3
    if len > maxMessageSize then .error .messageTooLarge
    else if rest.length < len then .error .unexpectedEof
    else
      match asciiDecode (rest.take len) with
      | none => .error .invalidUtf8
      | some cs =>
        match parseMessage cs with
        | some m => .ok (m, rest.drop len)
        | none => .error .malformed
  | _ => .error .unexpectedEof

/-! ## Port allocator (src/port_allocator.rs)

The busy set of a HashSet of u16 is modelled as a Finset of naturals; the
bind probe of is_port_available is an oracle telling for each port whether
binding 0.0.0.0 on that port succeeds at this moment. -/

structure PortAllocator where
  lo : Nat
  hi : Nat
  allocated : Finset Nat
deriving DecidableEq

inductive AllocError where
  | noPortsAvailable
deriving DecidableEq, Repr

/-- The ascending list of ports in the configured range, as iterated by
the for loop over self.range. -/
def PortAllocator.rangeList (a : PortAllocator) : List Nat :=
  List.range' a.lo (a.hi - a.lo)

/-- The scan of PortAllocator::allocate (src/port_allocator.rs lines 28
to 36): walk the candidates in order, skip ports in the busy set, probe
the rest, and return the first port that probes bindable. -/
def allocScan (busy : Finset Nat) (probe : Nat → Bool) : List Nat → Option Nat
  | [] => none
  | p :: ps =>
    if p ∈ busy then allocScan busy probe ps
    else if probe p then some p
    else allocScan busy probe ps

/-- PortAllocator::allocate (src/port_allocator.rs lines 24 to 43): scan
the range; on success insert the port into the busy set and return it; if
no port qualifies, fail with NoPortsAvailable leaving the set unchanged. -/
def PortAllocator.allocate (a : PortAllocator) (probe : Nat → Bool) :
    Except AllocError Nat × PortAllocator :=
  match allocScan a.allocated probe a.rangeList with
  | some p => (.ok p, { a with allocated := insert p a.allocated })
  | none => (.error .noPortsAvailable, a)

/-- PortAllocator::release (src/port_allocator.rs lines 46 to 48): remove
the port from the busy set. -/
def PortAllocator.release (a : PortAllocator) (p : Nat) : PortAllocator :=
  { a with allocated := a.allocated.erase p }

/-! ## Server model (src/server.rs)

Socket addresses are modelled as naturals. The sessions map (the clients
HashMap keyed by remote address) is an association list from address to
assigned port; the two mpsc channel handles held in ClientInfo are
modelled by the presence of the entry. I/O results, timer ticks and
channel operations are supplied by explicit event oracles. -/

def PORT_RANGE_START : Nat := 35100

def PORT_RANGE_END : Nat := 35200

/-- Heartbeat send interval of both loops, in seconds. -/
def heartbeatIntervalSecs : Nat := 20

/-- Lookup in the sessions map. -/
def mapLookup (m : List (Nat × Nat)) (k : Nat) : Option Nat :=
  match m with
  | [] => none
  | (k2, v) :: rest => if k2 = k then some v else mapLookup rest k

/-- HashMap::insert on the sessions map (replaces any entry for the key). -/
def mapInsert (m : List (Nat × Nat)) (k v : Nat) : List (Nat × Nat) :=
  (k, v) :: m.filter fun e => e.1 != k

/-- HashMap::remove on the sessions map. -/
def mapRemove (m : List (Nat × Nat)) (k : Nat) : List (Nat × Nat) :=
  m.filter fun e => e.1 != k

structure ServerState where
  alloc : PortAllocator
  clients : List (Nat × Nat)
deriving DecidableEq

/-- One firing of the select in the server control loop (src/server.rs
lines 189 to 225): a frame read completing (with the result of the
heartbeat echo write when the frame is a Heartbeat), a queued message
arriving on control_rx together with the result of writing it out, or the
heartbeat timer ticking together with the result of the heartbeat write. -/
inductive CtrlEvent where
  | readFrame (r : Except Unit Message) (echoOk : Bool)
  | queuedMsg (m : Message) (writeOk : Bool)
  | tick (writeOk : Bool)

inductive StepOutcome where
  | continueLoop
  | breakLoop
  | earlyErr
deriving DecidableEq, Repr

/-- One iteration of the server control loop (src/server.rs lines 189 to
225). A Heartbeat frame is echoed; failure of the echo write propagates
with the question-mark operator, returning from the enclosing function
without reaching the cleanup block. Any other frame is logged and the
loop continues. A read error, a failed write of a queued message, and a
failed heartbeat write each break the loop. -/
def serverCtrlStep : CtrlEvent → StepOutcome
  | .readFrame (.ok .heartbeat) echoOk => if echoOk then .continueLoop else .earlyErr
  | .readFrame (.ok _) _ => .continueLoop
  | .readFrame (.error _) _ => .breakLoop
  | .queuedMsg _ writeOk => if writeOk then .continueLoop else .breakLoop
  | .tick writeOk => if writeOk then .continueLoop else .breakLoop

inductive LoopExit where
  | broke
  | early
  | running
deriving DecidableEq, Repr

/-- Run the server control loop over a list of select events: the first
non-continuing event ends the loop; if the events are exhausted the loop
is still running. -/
def runServerCtrlLoop : List CtrlEvent → LoopExit
  | [] => .running
  | e :: es =>
    match serverCtrlStep e with
    | .continueLoop => runServerCtrlLoop es
    | .breakLoop => .broke
    | .earlyErr => .early

/-- Spec-side characterisation (from the parenthetical of section 4.4.1
step 6 of the specification): does this event carry an I/O failure, that
is a read error or a failed write of the echo, a queued message, or a
heartbeat. -/
def ctrlEventIOFail : CtrlEvent → Bool
  | .readFrame (.error _) _ => true
  | .readFrame (.ok .heartbeat) echoOk => !echoOk
  | .readFrame (.ok _) _ => false
  | .queuedMsg _ w => !w
  | .tick w => !w

/-- Environment of one call to handle_control_channel: the bind probe used
by the allocator, whether binding the public listener on the assigned
port succeeds, whether writing the TunnelResponse succeeds, and the select
events driving the control loop. -/
structure CtrlEnv where
  probe : Nat → Bool
  publicBindOk : Bool
  respWriteOk : Bool
  loopEvents : List CtrlEvent

inductive CtrlChanResult where
  | allocFailed
  | bindFailed
  | respondFailed
  | earlyIOErr
  | cleanExit
  | stillRunning
deriving DecidableEq, Repr

/-- handle_control_channel (src/server.rs lines 89 to 238): allocate a
port; bind the public listener; send the TunnelResponse (each failure
propagates with the question-mark operator, returning at once); register
the session in the clients map; run the control loop; on a break of the
loop, run the cleanup block, which removes the sessions entry and, if one
was present, releases its port. An early return from inside the loop (the
failed heartbeat echo) skips the cleanup block. -/
def handle_control_channel (st : ServerState) (addr : Nat) (env : CtrlEnv) :
    ServerState × CtrlChanResult :=
  match st.alloc.allocate env.probe with
  | (.error _, alloc1) => ({ st with alloc := alloc1 }, .allocFailed)
  | (.ok p, alloc1) =>
    let st1 : ServerState := { st with alloc := alloc1 }
    if !env.publicBindOk then (st1, .bindFailed)
    else if !env.respWriteOk then (st1, .respondFailed)
    else
      let st2 : ServerState := { st1 with clients := mapInsert st1.clients addr p }
      match runServerCtrlLoop env.loopEvents with
      | .running => (st2, .stillRunning)
      | .early => (st2, .earlyIOErr)
      | .broke =>
        match mapLookup st2.clients addr with
        | some port =>
          ({ alloc := st2.alloc.release port, clients := mapRemove st2.clients addr },
            .cleanExit)
        | none => (st2, .cleanExit)

/-- Outcome of the data_q.recv wait in the visitor acceptor task
(src/server.rs lines 158 to 174). -/
inductive PairingResult where
  | paired
  | closedChan
  | timedOut
deriving DecidableEq, Repr

inductive VisitorFate where
  | accepted (paired : Bool)
  | refused
deriving DecidableEq, Repr

/-- The visitor acceptor task (src/server.rs lines 145 to 183). The task
owns the public listener. Each trace element is one visitor connection
arriving at the public port: whether the CreateDataChannel send on ctrl_q
succeeds (it fails once the control loop has returned and dropped
control_rx), and the outcome of the 10-second wait on data_q. A failed
send or a closed data_q breaks the task, dropping the listener, after
which the remaining visitors are refused by the operating system. -/
def runAcceptor : List (Bool × PairingResult) → List VisitorFate
  | [] => []
  | (ctrlSendOk, pr) :: rest =>
    if ctrlSendOk then
      match pr with
      | .paired => .accepted true :: runAcceptor rest
      | .timedOut => .accepted false :: runAcceptor rest
      | .closedChan => .accepted false :: rest.map fun _ => .refused
    else
      .accepted false :: rest.map fun _ => .refused

/-- First-frame read timeout of the accept loop, in seconds
(src/server.rs line 72). -/
def firstFrameTimeoutSecs : Nat := 10

/-- Result of reading the first frame of an inbound connection. -/
inductive FirstFrame where
  | timeout
  | readErr
  | frame (m : Message)

inductive Dispatch where
  | controlChannel (localPort : Nat)
  | dataQueued (addr : Nat)
  | dataRejected
  | connErr
deriving DecidableEq, Repr

/-- handle_data_channel (src/server.rs lines 241 to 268): look up the
session by the remote address of the connection; if found, push the
socket onto that session's data_q; if not found, log and return, closing
the socket by dropping it. Neither branch touches the sessions map or the
allocator. -/
def handle_data_channel (st : ServerState) (addr : Nat) : ServerState × Dispatch :=
  match mapLookup st.clients addr with
  | some _ => (st, .dataQueued addr)
  | none => (st, .dataRejected)

/-- handle_connection (src/server.rs lines 65 to 86): read the first frame
with a 10-second timeout; a TunnelRequest makes the connection a control
channel, any other frame makes it a data channel; a timeout or read error
fails the connection task. The control-channel continuation is reported
as a dispatch decision; its body is handle_control_channel. -/
def handle_connection (st : ServerState) (addr : Nat) (ff : FirstFrame) :
    ServerState × Dispatch :=
  match ff with
  | .timeout => (st, .connErr)
  | .readErr => (st, .connErr)
  | .frame (.tunnelRequest lp) => (st, .controlChannel lp)
  | .frame _ => handle_data_channel st addr

/-! ## Client model (src/client.rs) -/

/-- Reconnect backoff of the client supervisor loops, in seconds. -/
def retryIntervalSecs : Nat := 3

/-- Receive deadline of the client control loop, in seconds. -/
def heartbeatTimeoutSecs : Nat := 60

/-- One firing of the select in the client control loop (src/client.rs
lines 132 to 175): the 60-second receive timeout wrapped around the frame
read either expires, yields a read error, or yields a frame (with the
result of the heartbeat echo write when the frame is a Heartbeat); or the
heartbeat timer ticks, with the result of the heartbeat write. -/
inductive ClientEvent where
  | recvTimeout
  | recvErr
  | recvFrame (m : Message) (echoOk : Bool)
  | tick (writeOk : Bool)

inductive ClientErr where
  | readFailed
  | heartbeatTimeout
  | heartbeatSendFailed
  | echoFailed
deriving DecidableEq, Repr

/-- One iteration of control_channel_loop (src/client.rs lines 125 to
177): none means the loop continues, some e means it returns the error e.
A CreateDataChannel frame spawns an independent data-channel task and the
loop continues; a Heartbeat frame is echoed, a failed echo write
propagating out; any other frame is logged and ignored; expiry of the
60-second receive timeout returns the heartbeat-timeout error. -/
def clientCtrlStep : ClientEvent → Option ClientErr
  | .recvTimeout => some .heartbeatTimeout
  | .recvErr => some .readFailed
  | .recvFrame .createDataChannel _ => none
  | .recvFrame .heartbeat echoOk => if echoOk then none else some .echoFailed
  | .recvFrame _ _ => none
  | .tick w => if w then none else some .heartbeatSendFailed

/-- Run the client control loop over a list of select events: the first
event producing an error ends the loop with that error; none means the
events ran out with the loop still running. -/
def runClientCtrlLoop : List ClientEvent → Option ClientErr
  | [] => none
  | e :: es =>
    match clientCtrlStep e with
    | none => runClientCtrlLoop es
    | some r => some r

inductive SupervisorAction where
  | finish
  | retryAfter (secs : Nat)
deriving DecidableEq, Repr

/-- One round of the supervisor loop in run_client (src/client.rs lines
44 to 63): a successful attempt returns, a failed attempt sleeps for the
retry interval and retries the whole connection. -/
def run_client_attempt : Except ClientErr Unit → SupervisorAction
  | .ok _ => .finish
  | .error _ => .retryAfter retryIntervalSecs

/-! ## Tunnel handle model (src/tunnel.rs)

The environment numbers the TCP connections the client dials to the
server in order and gives, for each connection on which the establish
handshake (send TunnelRequest, await TunnelResponse) is run, the port the
server assigns on that connection. All dials and handshakes succeed in
this environment; failures only cause retries of the same structure. -/

structure ClientEnv where
  assign : Nat → Nat

/-- try_connect (src/client.rs lines 67 to 92): dial the server on a
fresh connection, send TunnelRequest, await TunnelResponse with a
10-second timeout, and return the assigned port. The connection is
dropped when the function returns. Returns the port and the next fresh
connection index. -/
def try_connect (env : ClientEnv) (conn : Nat) : Nat × Nat :=
  (env.assign conn, conn + 1)

/-- The establish phase of try_run_client (src/client.rs lines 95 to
122): dial the server on a fresh connection of its own, send
TunnelRequest, await TunnelResponse, and keep the connection as the live
control channel. Returns the port assigned on that connection and the
next fresh connection index. -/
def try_run_client_establish (env : ClientEnv) (conn : Nat) : Nat × Nat :=
  (env.assign conn, conn + 1)

/-- The tunnel handle (src/tunnel.rs lines 8 to 14), extended with two
ghost fields recording what the model observed: the port of the live
control channel owned by the spawned run_client task, and the list of
connection indices on which an establish handshake was performed. -/
structure Tunnel where
  localPort : Nat
  assignedPort : Nat
  livePort : Nat
  handshakeConns : List Nat

/-- Tunnel::remote_port (src/tunnel.rs lines 18 to 20). -/
def Tunnel.remote_port (t : Tunnel) : Nat := t.assignedPort

/-- start_tunnel (src/tunnel.rs lines 65 to 94): call connect_and_get_port
(whose first successful attempt is try_connect on connection 0) to learn
an assigned port, then spawn run_client, whose try_run_client performs
the establish handshake again on a fresh connection, and build the handle
from the first port. The handle is never updated afterwards. -/
def start_tunnel (env : ClientEnv) (localPort : Nat) : Tunnel :=
  match try_connect env 0 with
  | (p1, next) =>
    match try_run_client_establish env next with
    | (p2, _) =>
      { localPort := localPort, assignedPort := p1, livePort := p2,
        handshakeConns := [0, next] }


/-! ## Helper lemmas for the codec claims -/

theorem natDigitsRev_eq (fuel n : Nat) (h : n ≤ fuel) : natDigitsRev fuel n = Nat.digits 10 n := by
  induction fuel generalizing n with
  | zero => interval_cases n; simp [natDigitsRev]
  | succ f ih =>
    rw [natDigitsRev]
    by_cases hn : n = 0
    · simp [hn]
    · rw [if_neg hn, ih (n / 10) (by omega),
        Nat.digits_def' (by norm_num : 1 < 10) (Nat.pos_of_ne_zero hn)]

theorem digitChar_isDigit (d : Nat) (h : d < 10) : (Nat.digitChar d).isDigit = true := by
  interval_cases d <;> decide

theorem digitChar_val (d : Nat) (h : d < 10) : charToDigitVal (Nat.digitChar d) = d := by
  interval_cases d <;> decide

theorem digitChar_ascii (d : Nat) (h : d < 10) : (Nat.digitChar d).toNat < 128 := by
  interval_cases d <;> decide

theorem digitChar_ne_quote (d : Nat) (h : d < 10) : Nat.digitChar d ≠ '"' := by
  interval_cases d <;> decide

theorem natToChars_mem (n : Nat) (c : Char) (hc : c ∈ natToChars n) :
    ∃ d, d < 10 ∧ c = Nat.digitChar d := by
  unfold natToChars at hc
  by_cases hn : n = 0
  · simp [hn] at hc
    exact ⟨0, by omega, by subst hc; rfl⟩
  · rw [if_neg hn, natDigitsRev_eq n n le_rfl] at hc
    simp only [List.mem_map, List.mem_reverse] at hc
    obtain ⟨d, hd, rfl⟩ := hc
    exact ⟨d, Nat.digits_lt_base (by norm_num) hd, rfl⟩

theorem natToChars_ne_nil (n : Nat) : natToChars n ≠ [] := by
  unfold natToChars
  by_cases hn : n = 0
  · simp [hn]
  · rw [if_neg hn, natDigitsRev_eq n n le_rfl]
    simp [Nat.digits_ne_nil_iff_ne_zero.mpr hn]

theorem natToChars_isDigit (n : Nat) (c : Char) (hc : c ∈ natToChars n) : c.isDigit = true := by
  obtain ⟨d, hd, rfl⟩ := natToChars_mem n c hc
  exact digitChar_isDigit d hd

theorem natToChars_length_le (n : Nat) (h : n < 65536) : (natToChars n).length ≤ 5 := by
  unfold natToChars
  by_cases hn : n = 0
  · simp [hn]
  · rw [if_neg hn, natDigitsRev_eq n n le_rfl]
    simp only [List.length_map, List.length_reverse]
    have hlen := Nat.digits_len 10 n (by norm_num) hn
    have hlog : Nat.log 10 n ≤ 4 := by
      have := Nat.log_lt_of_lt_pow hn (show n < 10 ^ 5 by omega)
      omega
    omega

theorem foldl_digits_rev (L : List Nat) (a : Nat) :
    L.reverse.foldl (fun acc d => 10 * acc + d) a = a * 10 ^ L.length + Nat.ofDigits 10 L := by
  induction L generalizing a with
  | nil => simp
  | cons d L ih =>
    simp only [List.reverse_cons, List.foldl_append, List.foldl_cons, List.foldl_nil]
    rw [ih]
    simp [Nat.ofDigits_cons, pow_succ]
    ring


theorem foldl_digitChar_eq (L : List Nat) (hL : ∀ d ∈ L, d < 10) (a : Nat) :
    L.foldl (fun acc d => 10 * acc + charToDigitVal (Nat.digitChar d)) a
      = L.foldl (fun acc d => 10 * acc + d) a := by
  induction L generalizing a with
  | nil => rfl
  | cons d L ih =>
    simp only [List.foldl_cons]
    rw [digitChar_val d (hL d (by simp)), ih (fun x hx => hL x (by simp [hx]))]

theorem parseNumber_natToChars (n : Nat) (r : List Char) :
    parseNumber (natToChars n ++ '\x7d' :: r) = some (n, '\x7d' :: r) := by
  have hdig : ∀ c ∈ natToChars n, c.isDigit = true := natToChars_isDigit n
  have htake : (natToChars n ++ '\x7d' :: r).takeWhile Char.isDigit = natToChars n := by
    rw [List.takeWhile_append_of_pos hdig, List.takeWhile_cons_of_neg (by decide),
      List.append_nil]
  have hdrop : (natToChars n ++ '\x7d' :: r).dropWhile Char.isDigit = '\x7d' :: r := by
    rw [List.dropWhile_append_of_pos hdig, List.dropWhile_cons_of_neg (by decide)]
  unfold parseNumber
  rw [htake, hdrop]
  rw [if_neg (by simp [List.isEmpty_iff, natToChars_ne_nil n])]
  congr 2
  unfold natToChars
  by_cases hn : n = 0
  · simp [hn, charToDigitVal]
  · rw [if_neg hn, natDigitsRev_eq n n le_rfl, List.foldl_map,
      foldl_digitChar_eq _ (fun d hd => Nat.digits_lt_base (by norm_num)
        (List.mem_reverse.mp hd)),
      foldl_digits_rev, Nat.ofDigits_digits]
    simp

theorem asciiDecode_map (cs : List Char) (h : ∀ c ∈ cs, c.toNat < 128) :
    asciiDecode (cs.map Char.toNat) = some cs := by
  unfold asciiDecode
  rw [if_pos (by simpa using h)]
  rw [List.map_map]
  congr 1
  rw [show Char.ofNat ∘ Char.toNat = id from funext fun c => Char.ofNat_toNat c]
  exact List.map_id cs

theorem parseMembers_mono (f : Nat) (cs : List Char) (r : List (List Char × JVal) × List Char)
    (hf : parseMembers f cs = some r) (g : Nat) (hfg : f ≤ g) : parseMembers g cs = some r := by
  induction f generalizing g cs r with
  | zero => simp [parseMembers] at hf
  | succ f ih =>
    obtain ⟨g2, rfl⟩ : ∃ g2, g = g2 + 1 := ⟨g - 1, by omega⟩
    rw [parseMembers] at hf ⊢
    split at hf
    next => exact absurd hf (by simp)
    next kv rest heq =>
      split at hf
      next => exact absurd hf (by simp)
      next c rest2 =>
        by_cases hc : c = ','
        · rw [if_pos hc] at hf ⊢
          cases hp : parseMembers f rest2 with
          | none => rw [hp] at hf; exact absurd hf (by simp)
          | some p => rw [hp] at hf; rw [ih rest2 p hp g2 (by omega)]; exact hf
        · rw [if_neg hc] at hf ⊢
          exact hf

theorem natToChars_ascii (n : Nat) (c : Char) (hc : c ∈ natToChars n) : c.toNat < 128 := by
  obtain ⟨d, hd, rfl⟩ := natToChars_mem n c hc
  exact digitChar_ascii d hd

theorem parseStringBody_closed (s r : List Char) (hs : ∀ c ∈ s, c ≠ '"') :
    parseStringBody (s ++ ('"' :: r)) = some (s, r) := by
  induction s with
  | nil => simp [parseStringBody]
  | cons c s ih =>
    rw [List.cons_append, parseStringBody, if_neg (hs c (by simp)),
      ih (fun x hx => hs x (by simp [hx]))]

theorem parseJVal_num (n : Nat) (r : List Char) :
    parseJVal (natToChars n ++ ('\x7d' :: r)) = some (.jnum n, '\x7d' :: r) := by
  cases hnc : natToChars n with
  | nil => exact absurd hnc (natToChars_ne_nil n)
  | cons c cs =>
    have hcd : c.isDigit = true := natToChars_isDigit n c (by rw [hnc]; simp)
    have hq : ¬c = '"' := by
      intro h
      rw [h] at hcd
      exact absurd hcd (by decide)
    rw [List.cons_append, parseJVal, if_neg hq, ← List.cons_append, ← hnc,
      parseNumber_natToChars]
    rfl

theorem parseMember_str (k v r : List Char) (hk : ∀ c ∈ k, c ≠ '"') (hv : ∀ c ∈ v, c ≠ '"') :
    parseMember ('"' :: (k ++ (('"' : Char) :: ':' :: '"' :: (v ++ ('"' :: r)))))
      = some ((k, .jstr v), r) := by
  rw [parseMember, if_pos rfl,
    parseStringBody_closed k (':' :: '"' :: (v ++ ('"' :: r))) hk]
  dsimp only
  rw [if_pos rfl, parseJVal, if_pos rfl, parseStringBody_closed v r hv]
  rfl

theorem parseMember_num (k : List Char) (n : Nat) (r : List Char) (hk : ∀ c ∈ k, c ≠ '"') :
    parseMember ('"' :: (k ++ (('"' : Char) :: ':' :: (natToChars n ++ ('\x7d' :: r)))))
      = some ((k, .jnum n), '\x7d' :: r) := by
  rw [parseMember, if_pos rfl,
    parseStringBody_closed k (':' :: (natToChars n ++ ('\x7d' :: r))) hk]
  dsimp only
  rw [if_pos rfl, parseJVal_num]
  rfl

theorem parseMembers_request (p : Nat) (f : Nat) :
    parseMembers (f + 2)
      ('"' :: ("type".data ++ (('"' : Char) :: ':' :: '"' :: ("TunnelRequest".data ++ ('"' ::
        ',' :: '"' :: ("local_port".data ++ (('"' : Char) :: ':' ::
          (natToChars p ++ ['\x7d']))))))))
      = some ([("type".data, .jstr "TunnelRequest".data),
               ("local_port".data, .jnum p)], []) := by
  rw [show f + 2 = (f + 1) + 1 from rfl, parseMembers,
    parseMember_str "type".data "TunnelRequest".data
      (',' :: '"' :: ("local_port".data ++ (('"' : Char) :: ':' :: (natToChars p ++ ['\x7d']))))
      (by decide) (by decide)]
  dsimp only
  rw [if_pos rfl, parseMembers,
    parseMember_num "local_port".data p [] (by decide)]
  dsimp only
  rw [if_neg (by decide), if_pos rfl]
  rfl

theorem parseMessage_request (p : Nat) (hp : p < 65536) :
    parseMessage (messageJson (.tunnelRequest p)) = some (.tunnelRequest p) := by
  have hform : messageJson (.tunnelRequest p) = '\x7b' ::
      ('"' :: ("type".data ++ (('"' : Char) :: ':' :: '"' :: ("TunnelRequest".data ++ ('"' ::
        ',' :: '"' :: ("local_port".data ++ (('"' : Char) :: ':' ::
          (natToChars p ++ ['\x7d'])))))))) := by
    rw [messageJson, List.append_assoc]
    rfl
  rw [parseMessage, hform, parseObject, if_pos rfl]
  set rest := '"' :: ("type".data ++ (('"' : Char) :: ':' :: '"' :: ("TunnelRequest".data ++
    ('"' :: ',' :: '"' :: ("local_port".data ++ (('"' : Char) :: ':' ::
      (natToChars p ++ ['\x7d']))))))) with hrest
  have h2 := parseMembers_request p 0
  rw [parseMembers_mono 2 rest _ h2 (rest.length + 1) (by
    rw [hrest]
    simp [List.length_append])]
  simp +decide [jfield, asU16, hp]

theorem read_write_request (p : Nat) (hp : p < 65536) :
    Message.read_from (Message.write_to (.tunnelRequest p)) = .ok (.tunnelRequest p, []) := by
  have hk1 : 1 ≤ (natToChars p).length := by
    cases hnc : natToChars p with
    | nil => exact absurd hnc (natToChars_ne_nil p)
    | cons c cs => simp
  have hk5 := natToChars_length_le p hp
  have hplen : (messageJson (.tunnelRequest p)).length = 38 + (natToChars p).length := by
    rw [messageJson]
    simp [List.length_append]
    omega
  have hascii : ∀ c ∈ messageJson (.tunnelRequest p), c.toNat < 128 := by
    rw [messageJson]
    intro c hc
    have hfixed : ∀ c2 ∈ "\x7b\"type\":\"TunnelRequest\",\"local_port\":".data,
        c2.toNat < 128 := by decide
    rcases List.mem_append.mp hc with hc2 | hc2
    · rcases List.mem_append.mp hc2 with hc3 | hc3
      · exact hfixed c hc3
      · exact natToChars_ascii p c hc3
    · simp at hc2
      subst hc2
      decide
  set pl := messageJson (.tunnelRequest p) with hpl
  rw [Message.write_to, u32le, ← hpl]
  simp only [List.cons_append, List.nil_append]
  rw [Message.read_from]
  have hval : u32leVal (pl.length % 256) (pl.length / 256 % 256) (pl.length / 65536 % 256)
      (pl.length / 16777216 % 256) = pl.length := by
    unfold u32leVal
    omega
  simp only [hval]
  rw [if_neg (by unfold maxMessageSize; omega)]
  rw [if_neg (by rw [List.length_map]; omega)]
  rw [show (pl.map Char.toNat).take pl.length = pl.map Char.toNat by
    rw [← List.length_map pl Char.toNat]; exact List.take_length _]
  rw [asciiDecode_map pl hascii]
  dsimp only
  rw [hpl, parseMessage_request p hp]
  dsimp only
  rw [show (pl.map Char.toNat).drop pl.length = [] by
    rw [← List.length_map pl Char.toNat]; exact List.drop_length _]

theorem parseMembers_response (p : Nat) (f : Nat) :
    parseMembers (f + 2)
      ('"' :: ("type".data ++ (('"' : Char) :: ':' :: '"' :: ("TunnelResponse".data ++ ('"' ::
        ',' :: '"' :: ("assigned_port".data ++ (('"' : Char) :: ':' ::
          (natToChars p ++ ['\x7d']))))))))
      = some ([("type".data, .jstr "TunnelResponse".data),
               ("assigned_port".data, .jnum p)], []) := by
  rw [show f + 2 = (f + 1) + 1 from rfl, parseMembers,
    parseMember_str "type".data "TunnelResponse".data
      (',' :: '"' :: ("assigned_port".data ++ (('"' : Char) :: ':' :: (natToChars p ++ ['\x7d']))))
      (by decide) (by decide)]
  dsimp only
  rw [if_pos rfl, parseMembers,
    parseMember_num "assigned_port".data p [] (by decide)]
  dsimp only
  rw [if_neg (by decide), if_pos rfl]
  rfl

theorem parseMessage_response (p : Nat) (hp : p < 65536) :
    parseMessage (messageJson (.tunnelResponse p)) = some (.tunnelResponse p) := by
  have hform : messageJson (.tunnelResponse p) = '\x7b' ::
      ('"' :: ("type".data ++ (('"' : Char) :: ':' :: '"' :: ("TunnelResponse".data ++ ('"' ::
        ',' :: '"' :: ("assigned_port".data ++ (('"' : Char) :: ':' ::
          (natToChars p ++ ['\x7d'])))))))) := by
    rw [messageJson, List.append_assoc]
    rfl
  rw [parseMessage, hform, parseObject, if_pos rfl]
  set rest := '"' :: ("type".data ++ (('"' : Char) :: ':' :: '"' :: ("TunnelResponse".data ++
    ('"' :: ',' :: '"' :: ("assigned_port".data ++ (('"' : Char) :: ':' ::
      (natToChars p ++ ['\x7d']))))))) with hrest
  have h2 := parseMembers_response p 0
  rw [parseMembers_mono 2 rest _ h2 (rest.length + 1) (by
    rw [hrest]
    simp [List.length_append])]
  simp +decide [jfield, asU16, hp]

theorem read_write_response (p : Nat) (hp : p < 65536) :
    Message.read_from (Message.write_to (.tunnelResponse p)) = .ok (.tunnelResponse p, []) := by
  have hk1 : 1 ≤ (natToChars p).length := by
    cases hnc : natToChars p with
    | nil => exact absurd hnc (natToChars_ne_nil p)
    | cons c cs => simp
  have hk5 := natToChars_length_le p hp
  have hplen : (messageJson (.tunnelResponse p)).length = 42 + (natToChars p).length := by
    rw [messageJson]
    simp [List.length_append]
    omega
  have hascii : ∀ c ∈ messageJson (.tunnelResponse p), c.toNat < 128 := by
    rw [messageJson]
    intro c hc
    have hfixed : ∀ c2 ∈ "\x7b\"type\":\"TunnelResponse\",\"assigned_port\":".data,
        c2.toNat < 128 := by decide
    rcases List.mem_append.mp hc with hc2 | hc2
    · rcases List.mem_append.mp hc2 with hc3 | hc3
      · exact hfixed c hc3
      · exact natToChars_ascii p c hc3
    · simp at hc2
      subst hc2
      decide
  set pl := messageJson (.tunnelResponse p) with hpl
  rw [Message.write_to, u32le, ← hpl]
  simp only [List.cons_append, List.nil_append]
  rw [Message.read_from]
  have hval : u32leVal (pl.length % 256) (pl.length / 256 % 256) (pl.length / 65536 % 256)
      (pl.length / 16777216 % 256) = pl.length := by
    unfold u32leVal
    omega
  simp only [hval]
  rw [if_neg (by unfold maxMessageSize; omega)]
  rw [if_neg (by rw [List.length_map]; omega)]
  rw [show (pl.map Char.toNat).take pl.length = pl.map Char.toNat by
    rw [← List.length_map pl Char.toNat]; exact List.take_length _]
  rw [asciiDecode_map pl hascii]
  dsimp only
  rw [hpl, parseMessage_response p hp]
  dsimp only
  rw [show (pl.map Char.toNat).drop pl.length = [] by
    rw [← List.length_map pl Char.toNat]; exact List.drop_length _]

/-- C1. Codec round-trip: decoding the byte stream produced by encoding any
protocol message yields that message back, with the stream fully consumed. -/
theorem codec_round_trip (m : Message) (h : m.wfb = true) :
    Message.read_from (Message.write_to m) = .ok (m, []) := by
  cases m with
  | tunnelRequest p => exact read_write_request p (by simpa [Message.wfb] using h)
  | tunnelResponse p => exact read_write_response p (by simpa [Message.wfb] using h)
  | createDataChannel => rfl
  | heartbeat => rfl

/-- Witness for codec_round_trip at concrete messages. -/
theorem codec_round_trip_witness :
    (Message.tunnelRequest 8080).wfb = true ∧
    Message.read_from (Message.write_to (.tunnelRequest 8080)) = .ok (.tunnelRequest 8080, []) :=
  ⟨by decide, codec_round_trip (.tunnelRequest 8080) (by decide)⟩

/-- C2. Oversize guard: a frame whose 4-byte little-endian length prefix
exceeds 1 MiB is rejected with MessageTooLarge regardless of what, if
anything, follows the prefix: the payload is never read. -/
theorem oversize_rejected (b0 b1 b2 b3 : Nat) (rest : List Nat)
    (h : u32leVal b0 b1 b2 b3 > maxMessageSize) :
    Message.read_from (b0 :: b1 :: b2 :: b3 :: rest) = .error .messageTooLarge := by
  rw [Message.read_from, if_pos h]

/-- Witness for oversize_rejected: the length prefix 0xFFFFFFFF from
scenario S6 is rejected whatever bytes follow. -/
theorem oversize_rejected_witness :
    u32leVal 255 255 255 255 > maxMessageSize ∧
    Message.read_from [255, 255, 255, 255, 0, 1, 2] = .error .messageTooLarge :=
  ⟨by decide, oversize_rejected 255 255 255 255 [0, 1, 2] (by decide)⟩


/-! ## Helper lemmas for the server claims -/

theorem mapLookup_mapInsert_self (m : List (Nat × Nat)) (addr p : Nat) :
    mapLookup (mapInsert m addr p) addr = some p := by
  simp [mapInsert, mapLookup]

theorem mapLookup_mapRemove_self (m : List (Nat × Nat)) (addr : Nat) :
    mapLookup (mapRemove m addr) addr = none := by
  induction m with
  | nil => rfl
  | cons e rest ih =>
    rcases e with ⟨k, v⟩
    unfold mapRemove at ih ⊢
    by_cases hk : k = addr
    · rw [List.filter_cons_of_neg (by simp [hk])]
      exact ih
    · rw [List.filter_cons_of_pos (by simp [hk])]
      rw [mapLookup, if_neg hk]
      exact ih

/-- C3. The bind-failure path of handle_control_channel evaluated at a
concrete failing input: with an empty busy set and an always-succeeding
probe the allocator grants port 35100; binding the public listener on
that port fails; the function returns the bind failure and port 35100 is
still in the busy set, because the early return skipped the cleanup block
that would have released it. -/
theorem bind_failed_keeps_port_busy :
    (handle_control_channel ⟨⟨35100, 35200, ∅⟩, []⟩ 7
      ⟨fun _ => true, false, true, []⟩).2 = .bindFailed ∧
    35100 ∈ (handle_control_channel ⟨⟨35100, 35200, ∅⟩, []⟩ 7
      ⟨fun _ => true, false, true, []⟩).1.alloc.allocated := by
  constructor
  · decide
  · decide

/-- C4 counterexample, exhibiting both failures of the claim at concrete
inputs. First: the first visitor connecting after the control channel has
closed (so the CreateDataChannel send on ctrl_q fails) is still accepted
by the listener, which the acceptor task owns and has not yet dropped; it
is not refused. Second: when the control loop exits through the failed
heartbeat-echo write, whose question-mark operator returns from
handle_control_channel past the cleanup block, the assigned port 35100
does not return to the allocator — it is still busy — and the session
entry is still present when the task returns. -/
theorem visitor_after_close_is_accepted :
    (runAcceptor [(false, .timedOut)] = [.accepted false] ∧
      (VisitorFate.accepted false ≠ .refused)) ∧
    ((handle_control_channel ⟨⟨35100, 35200, ∅⟩, []⟩ 7
        ⟨fun _ => true, true, true, [.readFrame (.ok .heartbeat) false]⟩).2 =
      .earlyIOErr ∧
      35100 ∈ (handle_control_channel ⟨⟨35100, 35200, ∅⟩, []⟩ 7
        ⟨fun _ => true, true, true, [.readFrame (.ok .heartbeat) false]⟩).1.alloc.allocated ∧
      mapLookup (handle_control_channel ⟨⟨35100, 35200, ∅⟩, []⟩ 7
        ⟨fun _ => true, true, true, [.readFrame (.ok .heartbeat) false]⟩).1.clients 7 =
        some 35100) := by
  exact ⟨⟨rfl, by decide⟩, by decide, by decide, by decide⟩

/-- C4 amended: after the control channel closes, the next visitor
connection is accepted exactly once more, unpaired, before the acceptor
task notices the dead session and drops the listener; every visitor after
that is refused, and none is ever paired. The assigned port returns to
the allocator only when the loop exits by breaking, the path that reaches
the cleanup block: there the port leaves the busy set and the session
entry is removed. When the loop instead exits through the failed
heartbeat-echo write, whose question-mark operator returns from
handle_control_channel past the cleanup block, the port stays busy and
the session entry stays in the map: they leak. -/
theorem control_close_teardown :
    (∀ (pr : PairingResult) (rest : List (Bool × PairingResult)),
      runAcceptor ((false, pr) :: rest) =
        .accepted false :: rest.map fun _ => .refused) ∧
    (∀ (st : ServerState) (addr : Nat) (env : CtrlEnv) (p : Nat) (alloc1 : PortAllocator),
      st.alloc.allocate env.probe = (.ok p, alloc1) →
      env.publicBindOk = true → env.respWriteOk = true →
      runServerCtrlLoop env.loopEvents = .broke →
      p ∉ (handle_control_channel st addr env).1.alloc.allocated ∧
      mapLookup (handle_control_channel st addr env).1.clients addr = none) ∧
    (∀ (st : ServerState) (addr : Nat) (env : CtrlEnv) (p : Nat) (alloc1 : PortAllocator),
      st.alloc.allocate env.probe = (.ok p, alloc1) →
      env.publicBindOk = true → env.respWriteOk = true →
      runServerCtrlLoop env.loopEvents = .early →
      p ∈ (handle_control_channel st addr env).1.alloc.allocated ∧
      mapLookup (handle_control_channel st addr env).1.clients addr = some p) := by
  refine ⟨?_, ?_, ?_⟩
  · intro pr rest
    cases pr <;> rfl
  · intro st addr env p alloc1 halloc hbind hresp hloop
    unfold handle_control_channel
    rw [halloc]
    dsimp only
    rw [hbind, hresp]
    simp only [Bool.not_true, Bool.false_eq_true, if_false]
    rw [hloop]
    dsimp only
    rw [mapLookup_mapInsert_self]
    dsimp only
    exact ⟨Finset.not_mem_erase p _, mapLookup_mapRemove_self _ addr⟩
  · intro st addr env p alloc1 halloc hbind hresp hloop
    have hmem : p ∈ alloc1.allocated := by
      unfold PortAllocator.allocate at halloc
      cases hs : allocScan st.alloc.allocated env.probe st.alloc.rangeList with
      | none => rw [hs] at halloc; exact absurd (congrArg Prod.fst halloc) (by simp)
      | some r =>
        rw [hs] at halloc
        have hr : r = p := by simpa using congrArg Prod.fst halloc
        have ha : alloc1 = { st.alloc with allocated := insert r st.alloc.allocated } := by
          simpa using (congrArg Prod.snd halloc).symm
        rw [ha, hr]
        exact Finset.mem_insert_self p _
    unfold handle_control_channel
    rw [halloc]
    dsimp only
    rw [hbind, hresp]
    simp only [Bool.not_true, Bool.false_eq_true, if_false]
    rw [hloop]
    dsimp only
    exact ⟨hmem, mapLookup_mapInsert_self _ addr p⟩

/-- Witness for control_close_teardown at concrete inputs: a dead-session
acceptor trace of two visitors; a control channel whose loop breaks on a
failed heartbeat write, releasing the port; and one whose loop exits
through a failed heartbeat-echo write, leaking it. -/
theorem control_close_teardown_witness :
    (runAcceptor [(false, .timedOut), (false, .paired)] =
      [.accepted false, .refused]) ∧
    ((⟨⟨35100, 35200, ∅⟩, []⟩ : ServerState).alloc.allocate (fun _ => true) =
      (.ok 35100, ⟨35100, 35200, {35100}⟩) ∧
      runServerCtrlLoop [.tick false] = .broke ∧
      runServerCtrlLoop [.readFrame (.ok .heartbeat) false] = .early) ∧
    (35100 ∉ (handle_control_channel ⟨⟨35100, 35200, ∅⟩, []⟩ 7
      ⟨fun _ => true, true, true, [.tick false]⟩).1.alloc.allocated ∧
    mapLookup (handle_control_channel ⟨⟨35100, 35200, ∅⟩, []⟩ 7
      ⟨fun _ => true, true, true, [.tick false]⟩).1.clients 7 = none) ∧
    (35100 ∈ (handle_control_channel ⟨⟨35100, 35200, ∅⟩, []⟩ 7
      ⟨fun _ => true, true, true, [.readFrame (.ok .heartbeat) false]⟩).1.alloc.allocated ∧
    mapLookup (handle_control_channel ⟨⟨35100, 35200, ∅⟩, []⟩ 7
      ⟨fun _ => true, true, true,
        [.readFrame (.ok .heartbeat) false]⟩).1.clients 7 = some 35100) := by
  refine ⟨control_close_teardown.1 .timedOut [(false, .paired)], ⟨rfl, rfl, rfl⟩, ?_, ?_⟩
  · exact control_close_teardown.2.1 ⟨⟨35100, 35200, ∅⟩, []⟩ 7
      ⟨fun _ => true, true, true, [.tick false]⟩ 35100 ⟨35100, 35200, {35100}⟩
      rfl rfl rfl rfl
  · exact control_close_teardown.2.2 ⟨⟨35100, 35200, ∅⟩, []⟩ 7
      ⟨fun _ => true, true, true, [.readFrame (.ok .heartbeat) false]⟩ 35100
      ⟨35100, 35200, {35100}⟩ rfl rfl rfl rfl

theorem allocScan_mem (busy : Finset Nat) (probe : Nat → Bool) (L : List Nat) (p : Nat)
    (h : allocScan busy probe L = some p) : p ∈ L ∧ p ∉ busy ∧ probe p = true := by
  induction L with
  | nil => simp [allocScan] at h
  | cons q L ih =>
    rw [allocScan] at h
    by_cases hq : q ∈ busy
    · rw [if_pos hq] at h
      have := ih h
      exact ⟨by simp [this.1], this.2⟩
    · rw [if_neg hq] at h
      by_cases hpr : probe q
      · rw [if_pos hpr] at h
        cases h
        exact ⟨by simp, hq, hpr⟩
      · rw [if_neg hpr] at h
        have := ih h
        exact ⟨by simp [this.1], this.2⟩

theorem allocScan_range_some (busy : Finset Nat) (probe : Nat → Bool) (n : Nat) :
    ∀ (lo p : Nat), allocScan busy probe (List.range' lo n) = some p →
      lo ≤ p ∧ p < lo + n ∧ p ∉ busy ∧ probe p = true ∧
      ∀ q, lo ≤ q → q < p → q ∈ busy ∨ probe q = false := by
  induction n with
  | zero => intro lo p h; simp [allocScan] at h
  | succ n ih =>
    intro lo p h
    rw [List.range'_succ, allocScan] at h
    by_cases hq : lo ∈ busy
    · rw [if_pos hq] at h
      obtain ⟨h1, h2, h3, h4, h5⟩ := ih (lo + 1) p h
      refine ⟨by omega, by omega, h3, h4, ?_⟩
      intro q hq1 hq2
      rcases Nat.eq_or_lt_of_le hq1 with rfl | hlt
      · exact Or.inl hq
      · exact h5 q (by omega) hq2
    · rw [if_neg hq] at h
      by_cases hpr : probe lo
      · rw [if_pos hpr] at h
        cases h
        exact ⟨le_rfl, by omega, hq, hpr, fun q hq1 hq2 => absurd (lt_of_le_of_lt hq1 hq2)
          (lt_irrefl lo)⟩
      · rw [if_neg hpr] at h
        obtain ⟨h1, h2, h3, h4, h5⟩ := ih (lo + 1) p h
        refine ⟨by omega, by omega, h3, h4, ?_⟩
        intro q hq1 hq2
        rcases Nat.eq_or_lt_of_le hq1 with rfl | hlt
        · exact Or.inr (by simpa using hpr)
        · exact h5 q (by omega) hq2

theorem allocScan_range_none (busy : Finset Nat) (probe : Nat → Bool) (n : Nat) :
    ∀ lo, allocScan busy probe (List.range' lo n) = none →
      ∀ q, lo ≤ q → q < lo + n → q ∈ busy ∨ probe q = false := by
  induction n with
  | zero => intro lo _ q h1 h2; omega
  | succ n ih =>
    intro lo h q hq1 hq2
    rw [List.range'_succ, allocScan] at h
    by_cases hq : lo ∈ busy
    · rw [if_pos hq] at h
      rcases Nat.eq_or_lt_of_le hq1 with rfl | hlt
      · exact Or.inl hq
      · exact ih (lo + 1) h q (by omega) (by omega)
    · rw [if_neg hq] at h
      by_cases hpr : probe lo
      · rw [if_pos hpr] at h
        exact absurd h (by simp)
      · rw [if_neg hpr] at h
        rcases Nat.eq_or_lt_of_le hq1 with rfl | hlt
        · exact Or.inr (by simpa using hpr)
        · exact ih (lo + 1) h q (by omega) (by omega)

/-- C5. Port-allocator state invariant: if every busy port lies in the
configured range, this is preserved by allocate (whatever it returns) and
by release; after release of p the busy set no longer contains p; and a
double release (releasing a port that is not busy) leaves the allocator
unchanged. -/
theorem allocator_invariant (a : PortAllocator) (probe : Nat → Bool) (p : Nat)
    (hinv : ∀ q ∈ a.allocated, a.lo ≤ q ∧ q < a.hi) :
    (∀ q ∈ (a.allocate probe).2.allocated, a.lo ≤ q ∧ q < a.hi) ∧
    (∀ q ∈ (a.release p).allocated, a.lo ≤ q ∧ q < a.hi) ∧
    p ∉ (a.release p).allocated ∧
    (p ∉ a.allocated → a.release p = a) := by
  refine ⟨?_, ?_, Finset.not_mem_erase p _, ?_⟩
  · unfold PortAllocator.allocate
    cases hs : allocScan a.allocated probe a.rangeList with
    | none => exact hinv
    | some r =>
      intro q hqmem
      rw [Finset.mem_insert] at hqmem
      rcases hqmem with rfl | hqmem
      · obtain ⟨h1, -, -⟩ := allocScan_mem _ _ _ _ hs
        rw [PortAllocator.rangeList, List.mem_range'_1] at h1
        omega
      · exact hinv q hqmem
  · intro q hqmem
    exact hinv q (Finset.mem_of_mem_erase hqmem)
  · intro hp
    unfold PortAllocator.release
    rw [Finset.erase_eq_of_not_mem hp]

/-- Witness for allocator_invariant: range 35100 to 35200 with busy set
containing 35100, released port 35105. -/
theorem allocator_invariant_witness :
    (∀ q ∈ ({35100} : Finset Nat), 35100 ≤ q ∧ q < 35200) ∧
    ((∀ q ∈ ((⟨35100, 35200, {35100}⟩ : PortAllocator).allocate
        fun _ => true).2.allocated, 35100 ≤ q ∧ q < 35200) ∧
      (∀ q ∈ ((⟨35100, 35200, {35100}⟩ : PortAllocator).release 35105).allocated,
        35100 ≤ q ∧ q < 35200) ∧
      35105 ∉ ((⟨35100, 35200, {35100}⟩ : PortAllocator).release 35105).allocated ∧
      (35105 ∉ ({35100} : Finset Nat) →
        (⟨35100, 35200, {35100}⟩ : PortAllocator).release 35105 =
          ⟨35100, 35200, {35100}⟩)) :=
  ⟨by decide, allocator_invariant ⟨35100, 35200, {35100}⟩ (fun _ => true) 35105 (by decide)⟩

/-- C6. Contract of allocate: on success the returned port is in range,
was not busy, probed bindable, every smaller in-range port was busy or
failed its probe (the scan is ascending and takes the first success), and
the new busy set is the old one plus the returned port; on failure every
port of the range was busy or failed its probe and the allocator is
returned unchanged. -/
theorem allocate_contract (a : PortAllocator) (probe : Nat → Bool) :
    (∀ p a2, a.allocate probe = (.ok p, a2) →
      a.lo ≤ p ∧ p < a.hi ∧ p ∉ a.allocated ∧ probe p = true ∧
      (∀ q, a.lo ≤ q → q < p → q ∈ a.allocated ∨ probe q = false) ∧
      a2.allocated = insert p a.allocated) ∧
    (∀ a2, a.allocate probe = (.error .noPortsAvailable, a2) →
      (∀ q, a.lo ≤ q → q < a.hi → q ∈ a.allocated ∨ probe q = false) ∧ a2 = a) := by
  constructor
  · intro p a2 h
    unfold PortAllocator.allocate at h
    cases hs : allocScan a.allocated probe a.rangeList with
    | none => rw [hs] at h; exact absurd h (by simp)
    | some r =>
      rw [hs] at h
      have hp : r = p := by
        have h2 := congrArg Prod.fst h
        simpa using h2
      subst hp
      have ha2 : a2 = { a with allocated := insert r a.allocated } := by
        have h2 := congrArg Prod.snd h
        simpa using h2.symm
      rw [PortAllocator.rangeList] at hs
      obtain ⟨h1, h2, h3, h4, h5⟩ := allocScan_range_some _ _ _ _ _ hs
      exact ⟨h1, by omega, h3, h4, h5, by rw [ha2]⟩
  · intro a2 h
    unfold PortAllocator.allocate at h
    cases hs : allocScan a.allocated probe a.rangeList with
    | some r => rw [hs] at h; exact absurd h (by simp)
    | none =>
      rw [hs] at h
      obtain ⟨-, ha⟩ := Prod.mk.injEq .. ▸ h
      rw [PortAllocator.rangeList] at hs
      refine ⟨fun q h1 h2 => allocScan_range_none _ _ _ _ hs q h1 (by omega), ?_⟩
      cases h
      rfl

/-- Witness for allocate_contract: range 35100 to 35102 with 35100 busy
and an always-succeeding probe allocates 35101; a full range fails with
NoPortsAvailable leaving the allocator unchanged. -/
theorem allocate_contract_witness :
    ((⟨35100, 35102, {35100}⟩ : PortAllocator).allocate (fun _ => true) =
      (.ok 35101, ⟨35100, 35102, insert 35101 {35100}⟩)) ∧
    (35100 ≤ 35101 ∧ 35101 < 35102 ∧ 35101 ∉ ({35100} : Finset Nat) ∧
      (fun _ => true : Nat → Bool) 35101 = true ∧
      (∀ q, 35100 ≤ q → q < 35101 → q ∈ ({35100} : Finset Nat) ∨
        (fun _ => true : Nat → Bool) q = false) ∧
      (⟨35100, 35102, insert 35101 {35100}⟩ : PortAllocator).allocated =
        insert 35101 ({35100} : Finset Nat)) :=
  ⟨rfl, (allocate_contract ⟨35100, 35102, {35100}⟩ fun _ => true).1 35101
    ⟨35100, 35102, insert 35101 {35100}⟩ rfl⟩

/-- C7 counterexample: a received frame other than Heartbeat, here a
TunnelRequest, does not terminate the server control loop: the step
continues, contradicting the claim that any non-Heartbeat frame
terminates it. -/
theorem unexpected_frame_continues :
    serverCtrlStep (.readFrame (.ok (.tunnelRequest 8080)) true) = .continueLoop ∧
    (StepOutcome.continueLoop ≠ .breakLoop ∧ StepOutcome.continueLoop ≠ .earlyErr) := by
  exact ⟨rfl, by decide, by decide⟩

/-- C7 amended: an iteration of the server control loop continues exactly
when its event carries no I/O failure; equivalently, the loop terminates
precisely on a read error or a failed write (of the heartbeat echo, of a
queued message, or of a timer heartbeat), while received frames other
than Heartbeat are logged, ignored, and never terminate the loop. -/
theorem ctrl_loop_exit_iff (e : CtrlEvent) :
    serverCtrlStep e = .continueLoop ↔ ctrlEventIOFail e = false := by
  cases e with
  | readFrame r echoOk =>
    cases r with
    | ok m => cases m <;> cases echoOk <;> simp [serverCtrlStep, ctrlEventIOFail]
    | error u => simp [serverCtrlStep, ctrlEventIOFail]
  | queuedMsg m w => cases w <;> simp [serverCtrlStep, ctrlEventIOFail]
  | tick w => cases w <;> simp [serverCtrlStep, ctrlEventIOFail]

/-- C8. Heartbeat timeout is recoverable: if, after any run of
uneventful iterations, the 60-second receive window of the client control
loop expires with no frame, the loop returns the heartbeat-timeout error;
the run_client supervisor reacts to an error by retrying after 3 seconds;
and the modelled deadline and backoff are the 60 and 3 seconds of the
source. -/
theorem heartbeat_timeout_retries (pre post : List ClientEvent)
    (hpre : ∀ e ∈ pre, clientCtrlStep e = none) :
    runClientCtrlLoop (pre ++ .recvTimeout :: post) = some .heartbeatTimeout ∧
    run_client_attempt (.error .heartbeatTimeout) = .retryAfter 3 ∧
    heartbeatTimeoutSecs = 60 ∧ retryIntervalSecs = 3 := by
  refine ⟨?_, rfl, rfl, rfl⟩
  induction pre with
  | nil => rfl
  | cons e es ih =>
    rw [List.cons_append, runClientCtrlLoop, hpre e (List.mem_cons_self e es)]
    exact ih fun x hx => hpre x (List.mem_cons_of_mem e hx)

/-- Witness for heartbeat_timeout_retries: one successful heartbeat tick,
then the receive timeout expires. -/
theorem heartbeat_timeout_retries_witness :
    (∀ e ∈ [ClientEvent.tick true], clientCtrlStep e = none) ∧
    (runClientCtrlLoop [.tick true, .recvTimeout] = some .heartbeatTimeout ∧
      run_client_attempt (.error .heartbeatTimeout) = .retryAfter 3 ∧
      heartbeatTimeoutSecs = 60 ∧ retryIntervalSecs = 3) :=
  ⟨by intro e he; rcases List.mem_singleton.mp he with rfl; rfl,
    heartbeat_timeout_retries [.tick true] []
      (by intro e he; rcases List.mem_singleton.mp he with rfl; rfl)⟩

/-- C9. First-frame dispatch: the first frame is read under the 10-second
timeout; a TunnelRequest routes the connection to the control-channel
handler with its local port; any other frame routes it to the
data-channel handler, which looks the session up by the remote address
and either queues the socket on data_q or, when no session exists, closes
it, leaving the sessions map and allocator untouched in both cases. -/
theorem first_frame_dispatch (st : ServerState) (addr : Nat) (m : Message)
    (hm : ∀ lp, m ≠ .tunnelRequest lp) :
    firstFrameTimeoutSecs = 10 ∧
    (∀ lp, handle_connection st addr (.frame (.tunnelRequest lp)) =
      (st, .controlChannel lp)) ∧
    ((∃ p, mapLookup st.clients addr = some p) →
      handle_connection st addr (.frame m) = (st, .dataQueued addr)) ∧
    (mapLookup st.clients addr = none →
      handle_connection st addr (.frame m) = (st, .dataRejected)) := by
  refine ⟨rfl, fun lp => rfl, ?_, ?_⟩
  · rintro ⟨p, hp⟩
    cases m with
    | tunnelRequest lp => exact absurd rfl (hm lp)
    | tunnelResponse q => simp [handle_connection, handle_data_channel, hp]
    | createDataChannel => simp [handle_connection, handle_data_channel, hp]
    | heartbeat => simp [handle_connection, handle_data_channel, hp]
  · intro hp
    cases m with
    | tunnelRequest lp => exact absurd rfl (hm lp)
    | tunnelResponse q => simp [handle_connection, handle_data_channel, hp]
    | createDataChannel => simp [handle_connection, handle_data_channel, hp]
    | heartbeat => simp [handle_connection, handle_data_channel, hp]

/-- Witness for first_frame_dispatch: a session for address 5 on port
35100 exists; a Heartbeat first frame from address 5 is queued as a data
channel. -/
theorem first_frame_dispatch_witness :
    (∀ lp, Message.heartbeat ≠ .tunnelRequest lp) ∧
    (firstFrameTimeoutSecs = 10 ∧
      (∀ lp, handle_connection ⟨⟨35100, 35200, {35100}⟩, [(5, 35100)]⟩ 5
        (.frame (.tunnelRequest lp)) =
        (⟨⟨35100, 35200, {35100}⟩, [(5, 35100)]⟩, .controlChannel lp)) ∧
      ((∃ p, mapLookup [(5, 35100)] 5 = some p) →
        handle_connection ⟨⟨35100, 35200, {35100}⟩, [(5, 35100)]⟩ 5 (.frame .heartbeat) =
        (⟨⟨35100, 35200, {35100}⟩, [(5, 35100)]⟩, .dataQueued 5)) ∧
      (mapLookup [(5, 35100)] 5 = none →
        handle_connection ⟨⟨35100, 35200, {35100}⟩, [(5, 35100)]⟩ 5 (.frame .heartbeat) =
        (⟨⟨35100, 35200, {35100}⟩, [(5, 35100)]⟩, .dataRejected))) :=
  ⟨by intro lp h; exact Message.noConfusion h,
    first_frame_dispatch ⟨⟨35100, 35200, {35100}⟩, [(5, 35100)]⟩ 5 .heartbeat
      (by intro lp h; exact Message.noConfusion h)⟩

/-- C10. start_tunnel performs the establish handshake twice, on two
distinct TCP connections: connect_and_get_port obtains a port on
connection 0, which is then dropped, and the spawned run_client obtains
its own port on connection 1, the live control channel; remote_port
always reports the port of connection 0 and is never updated, so there is
an environment in which the reported port differs from the port of the
live control channel. -/
theorem start_tunnel_double_handshake :
    (∀ (env : ClientEnv) (lp : Nat),
      (start_tunnel env lp).handshakeConns = [0, 1] ∧
      (start_tunnel env lp).remote_port = env.assign 0 ∧
      (start_tunnel env lp).livePort = env.assign 1) ∧
    (∃ (env : ClientEnv) (lp : Nat),
      (start_tunnel env lp).remote_port ≠ (start_tunnel env lp).livePort) := by
  refine ⟨fun env lp => ⟨rfl, rfl, rfl⟩, ⟨⟨fun n => 35100 + n⟩, 9001, by decide⟩⟩

end Rathole
